import Mathlib

/-!
# Verification of the rfa2json extraction core

Shallow embedding of the rfa2json repository (XML metadata extraction from
binary .rfa containers) and proofs about it.  The embedding follows the
Python source:

* `src/rfa2json/models.py`            — the typed entity graph
* `src/rfa2json/extract/xml_reader.py`— locator, encodings, repair, extractor
* `src/rfa2json/repo/json_repo.py`    — JSON save/load

Python's `xml.etree.ElementTree` elements are modelled at tree level
(`XmlElement`), with tags already in the `{namespace-uri}localname` form in
which ElementTree presents them.  Bytes are modelled as `List Nat` with
values below 256.
-/

namespace Rfa2Json

/-- The two namespace URIs from `RevitFamilyXMLReader.NAMESPACES`. -/
def atomUri : String := "http://www.w3.org/2005/Atom"

/-- Vendor (partatom) namespace URI. -/
def vendorUri : String := "urn:schemas-autodesk-com:partatom"

/-- Qualify a local name with a namespace URI the way ElementTree renders
resolved tags: `\x7buri\x7dlocal`. -/
def qualify (uri local_ : String) : String :=
  "\x7b" ++ uri ++ "\x7d" ++ local_

/-- An ElementTree element: resolved tag, attributes, text (text before the
first child) and direct children. -/
inductive XmlElement where
  | mk (tag : String) (attrib : List (String × String)) (text : Option String)
       (children : List XmlElement)

namespace XmlElement

def tag : XmlElement → String
  | mk t _ _ _ => t

def attrib : XmlElement → List (String × String)
  | mk _ a _ _ => a

def text : XmlElement → Option String
  | mk _ _ tx _ => tx

def children : XmlElement → List XmlElement
  | mk _ _ _ cs => cs

/-- `elem.get(key)` — first attribute with the given name, like Python's
`Element.get`. -/
def getAttr (e : XmlElement) (key : String) : Option String :=
  (e.attrib.find? (fun p => p.1 = key)).map (·.2)

/-- `elem.get(key, default)`. -/
def getAttrD (e : XmlElement) (key dflt : String) : String :=
  (e.getAttr key).getD dflt

/-- `elem.find(path, ns)` for a simple (single-tag) path: the first direct
child whose resolved tag equals the qualified name. -/
def findChild (e : XmlElement) (qtag : String) : Option XmlElement :=
  e.children.find? (fun c => c.tag = qtag)

/-- `elem.findall(path, ns)` for a simple path: all direct children with the
given resolved tag. -/
def findAll (e : XmlElement) (qtag : String) : List XmlElement :=
  e.children.filter (fun c => c.tag = qtag)

end XmlElement

/-! ## Entity model (`models.py`) -/

/-- `datetime` values, modelled by their ISO-8601 rendering.
`isoformat` reads the rendering and `fromisoformat` rebuilds the value from
it; in Python `datetime.fromisoformat(d.isoformat()) == d`. -/
structure PyDateTime where
  iso : String
deriving DecidableEq

/-- `datetime.isoformat`. -/
def PyDateTime.isoformat (d : PyDateTime) : String := d.iso

/-- `datetime.fromisoformat`, on strings produced by `isoformat`. -/
def PyDateTime.fromisoformat (s : String) : PyDateTime := ⟨s⟩

/-- `models.Parameter`.  `value` holds element text (`str | None` on every
code path of the repository), so it is modelled as `Option String`. -/
structure Parameter where
  name : String
  display_name : Option String := none
  type : String := "custom"
  type_of_parameter : Option String := none
  units : Option String := none
  value : Option String := none
deriving DecidableEq

/-- `models.ParameterGroup`. -/
structure ParameterGroup where
  name : String
  parameters : List Parameter := []
deriving DecidableEq

/-- `models.Feature`. -/
structure Feature where
  name : String
  groups : List ParameterGroup := []
deriving DecidableEq

/-- `models.FamilyPart`. -/
structure FamilyPart where
  name : String
  type : String := "user"
  parameters : List Parameter := []
deriving DecidableEq

/-- `models.DesignFile`. -/
structure DesignFile where
  name : String
  product : String
  product_version : String
  updated : PyDateTime
deriving DecidableEq

/-- `models.Link`. -/
structure Link where
  rel : String
  type : String
  href : String
  design_file : Option DesignFile := none
deriving DecidableEq

/-- `models.Taxonomy`. -/
structure Taxonomy where
  term : String
  label : String
deriving DecidableEq

/-- `models.Category`. -/
structure Category where
  name : String
deriving DecidableEq

/-- `models.Family`. -/
structure Family where
  type : String := "user"
  variation_count : Int := 0
  parts : List FamilyPart := []
deriving DecidableEq

/-- `models.RevitFamilyEntry`. -/
structure RevitFamilyEntry where
  name : String
  id : String
  updated : PyDateTime
  taxonomies : List Taxonomy := []
  categories : List Category := []
  links : List Link := []
  features : List Feature := []
  family : Option Family := none
deriving DecidableEq

/-! ## Tag cleaning and parameter construction (`xml_reader.py`) -/

/-- Python `s.startswith(pre)`. -/
def strStartsWith (s pre : String) : Bool :=
  pre.data.isPrefixOf s.data

/-- Python `s.lower()` (ASCII case folding; all names compared in the
source are ASCII). -/
def lowerAscii (s : String) : String :=
  ⟨s.data.map Char.toLower⟩

/-- `RevitFamilyXMLReader._clean_tag_name`: strip a leading bracketed
namespace URI from a resolved tag.  Python's tag.find locates the first
closing brace;
when the tag starts with `{` and contains a `}`, the part after the first
`}` is returned, otherwise the tag is unchanged. -/
def cleanTagName (tagName : String) : String :=
  match tagName.data with
  | '{' :: rest =>
    match rest.dropWhile (fun c => c ≠ '}') with
    | _ :: afterBrace => ⟨afterBrace⟩
    | [] => tagName
  | _ => tagName

/-- `RevitFamilyXMLReader._create_parameter_from_element`.  Always returns a
parameter (the Python function never returns `None`). -/
def createParameterFromElement (e : XmlElement) : Parameter :=
  { name := cleanTagName e.tag
    display_name := e.getAttr "displayName"
    type := e.getAttrD "type" "custom"
    type_of_parameter := e.getAttr "typeOfParameter"
    units := e.getAttr "units"
    value := e.text }

/-- Skip test of `_get_parameters_from_group`: the child's tag starts with
the bracketed vendor namespace, or its cleaned tag lower-cases to "title". -/
def groupSkip (c : XmlElement) : Bool :=
  strStartsWith c.tag ("\x7b" ++ vendorUri ++ "\x7d") || lowerAscii (cleanTagName c.tag) = "title"

/-- Skip test of `_get_parameters_from_part`: the child's tag is the
atom-namespace title element, or its cleaned tag lower-cases to "title". -/
def partSkip (c : XmlElement) : Bool :=
  c.tag = qualify atomUri "title" || lowerAscii (cleanTagName c.tag) = "title"

/-- Loop body shared by the two parameter-extraction routines.  The Python
`if param:` guard is vacuous (a dataclass instance is always truthy), so a
non-skipped child always contributes a parameter. -/
def extractParams (skip : XmlElement → Bool) : List XmlElement → List Parameter
  | [] => []
  | c :: rest =>
    if skip c then extractParams skip rest
    else createParameterFromElement c :: extractParams skip rest

/-- `RevitFamilyXMLReader._get_parameters_from_group`. -/
def getParametersFromGroup (groupElem : XmlElement) : List Parameter :=
  extractParams groupSkip groupElem.children

/-- `RevitFamilyXMLReader._get_parameters_from_part`. -/
def getParametersFromPart (partElem : XmlElement) : List Parameter :=
  extractParams partSkip partElem.children

/-! ## Family extraction (`_get_family`, `_get_family_parts`) -/

/-- Python `int(str)` on the strings this code feeds it: optional ASCII
whitespace, an optional sign, then one or more digits (with single
underscores allowed between digits).  `none` models `ValueError`. -/
def pyIntDigits : List Char → Option Nat → Option Nat
  | [], acc => acc
  | c :: rest, acc =>
    if c.isDigit then
      pyIntDigits rest (some ((acc.getD 0) * 10 + (c.toNat - '0'.toNat)))
    else if c = '_' then
      match acc, rest with
      | some _, d :: _ => if d.isDigit then pyIntDigits rest acc else none
      | _, _ => none
    else none

/-- Python `int(·)` over a string; `none` models `ValueError`. -/
def pyInt (s : String) : Option Int :=
  let cs := s.data.dropWhile (fun c => c = ' ' || c = '\t' || c = '\n' || c = '\r')
  let cs := cs.reverse.dropWhile (fun c => c = ' ' || c = '\t' || c = '\n' || c = '\r') |>.reverse
  match cs with
  | '-' :: rest => (pyIntDigits rest none).map (fun n => -(n : Int))
  | '+' :: rest => (pyIntDigits rest none).map (fun n => (n : Int))
  | rest => (pyIntDigits rest none).map (fun n => (n : Int))

/-- The `variation_count` computation inside `_get_family`: find
`A:variationCount`; when the element exists and its text is truthy, parse it
with `int(...)`, falling back to 0 on `ValueError`. -/
def variationCountOf (familyElem : XmlElement) : Int :=
  match familyElem.findChild (qualify vendorUri "variationCount") with
  | none => 0
  | some e =>
    match e.text with
    | none => 0
    | some t => if t = "" then 0 else (pyInt t).getD 0

/-- `RevitFamilyXMLReader._get_family_parts`. -/
def getFamilyParts (familyElem : XmlElement) : List FamilyPart :=
  (familyElem.findAll (qualify vendorUri "part")).map (fun partElem =>
    let title := match partElem.findChild (qualify atomUri "title") with
      | some te => match te.text with
        | some tx => if tx = "" then "" else tx
        | none => ""
      | none => ""
    { name := title
      type := partElem.getAttrD "type" "user"
      parameters := getParametersFromPart partElem })

/-- `RevitFamilyXMLReader._get_family`. -/
def getFamily (root : XmlElement) : Option Family :=
  match root.findChild (qualify vendorUri "family") with
  | none => none
  | some familyElem =>
    some { type := familyElem.getAttrD "type" "user"
           variation_count := variationCountOf familyElem
           parts := getFamilyParts familyElem }

/-! ## Post-extraction validator (`_validate_cleaned_data`) -/

/-- The two bracketed namespace patterns scanned for by the validator. -/
def namespacePatterns : List String :=
  ["\x7b" ++ atomUri ++ "\x7d", "\x7b" ++ vendorUri ++ "\x7d"]

/-- Contiguous-sublist containment (used for Python's `pattern in s` on
strings and for byte searches). -/
def containsSub {α : Type} [DecidableEq α] (pat : List α) : List α → Bool
  | [] => pat.isEmpty
  | x :: rest => pat.isPrefixOf (x :: rest) || containsSub pat rest

/-- Substring containment, Python's `pattern in s`. -/
def strContains (s pat : String) : Bool :=
  containsSub pat.data s.data

/-- Warnings produced for one parameter list by `_validate_cleaned_data`
(one warning per matching pattern, message fixed per parameter). -/
def paramWarnings (prefixMsg : String) (ps : List Parameter) : List String :=
  ps.flatMap (fun p =>
    (namespacePatterns.filter (fun pat => strContains p.name pat)).map
      (fun _ => prefixMsg ++ p.name))

/-- `RevitFamilyXMLReader._validate_cleaned_data`: the validator only reads
the entity and logs warnings; it is modelled as the list of warning
messages it emits. -/
def validateCleanedData (entry : RevitFamilyEntry) : List String :=
  (entry.features.flatMap (fun f =>
    f.groups.flatMap (fun g =>
      paramWarnings "Namespace-Prefix in Parameter gefunden: " g.parameters)))
  ++ (match entry.family with
      | none => []
      | some fam =>
        fam.parts.flatMap (fun part =>
          paramWarnings "Namespace-Prefix in Family Part Parameter gefunden: "
            part.parameters))

/-- The tail of `read_from_xml_string` (lines 249–252): run the validator on
the built entry, then return the entry.  The result pairs the returned
entity with the emitted diagnostics. -/
def validateAndReturn (entry : RevitFamilyEntry) : RevitFamilyEntry × List String :=
  (entry, validateCleanedData entry)

/-! ## JSON repository (`repo/json_repo.py`)

`save` serializes through `_to_dict` and `json.dump`, `load` parses the file
with `json.load` and rebuilds through `_from_dict`.  The file step is the
identity on JSON values, so `load ∘ save` is modelled as
`fromDict ∘ toDict`.  JSON values are modelled by `Json`; the only numbers
the repository writes are integers (`variation_count`). -/

inductive Json where
  | null
  | bool (b : Bool)
  | num (n : Int)
  | str (s : String)
  | arr (items : List Json)
  | obj (fields : List (String × Json))

/-- Python `dict[k]` / `dict.get(k)` on an object: the value stored under
the key (`none` when missing or not an object). -/
def jLookup (j : Json) (k : String) : Option Json :=
  match j with
  | .obj fields => (fields.find? (fun p => p.1 = k)).map (·.2)
  | _ => none

/-- Python truthiness of a JSON value (`if l.get("design_file"):` …). -/
def jTruthy : Json → Bool
  | .null => false
  | .bool b => b
  | .num n => (n ≠ 0 : Bool)
  | .str s => (s ≠ "" : Bool)
  | .arr l => !l.isEmpty
  | .obj l => !l.isEmpty

/-- Serialize `str | None`. -/
def optStr : Option String → Json
  | some s => .str s
  | none => .null

/-- The parameter dictionary written by `_to_dict` (used for both group and
family-part parameters, whose serialized shapes coincide). -/
def paramToDict (p : Parameter) : Json :=
  .obj [("name", .str p.name), ("display_name", optStr p.display_name),
        ("type", .str p.type), ("type_of_parameter", optStr p.type_of_parameter),
        ("units", optStr p.units), ("value", optStr p.value)]

def designFileToDict (df : DesignFile) : Json :=
  .obj [("name", .str df.name), ("product", .str df.product),
        ("product_version", .str df.product_version),
        ("updated", .str df.updated.isoformat)]

def linkToDict (l : Link) : Json :=
  .obj [("rel", .str l.rel), ("type", .str l.type), ("href", .str l.href),
        ("design_file", match l.design_file with
          | some df => designFileToDict df
          | none => .null)]

def groupToDict (g : ParameterGroup) : Json :=
  .obj [("name", .str g.name), ("parameters", .arr (g.parameters.map paramToDict))]

def featureToDict (f : Feature) : Json :=
  .obj [("name", .str f.name), ("groups", .arr (f.groups.map groupToDict))]

def partToDict (p : FamilyPart) : Json :=
  .obj [("name", .str p.name), ("type", .str p.type),
        ("parameters", .arr (p.parameters.map paramToDict))]

def familyToDict (f : Family) : Json :=
  .obj [("type", .str f.type), ("variation_count", .num f.variation_count),
        ("parts", .arr (f.parts.map partToDict))]

/-- `RevitFamilyJSONRepository._to_dict`.  Note: no "taxonomies" key is
written. -/
def toDict (e : RevitFamilyEntry) : Json :=
  .obj [("name", .str e.name), ("id", .str e.id),
        ("updated", .str e.updated.isoformat),
        ("categories", .arr (e.categories.map (fun c => .obj [("name", .str c.name)]))),
        ("links", .arr (e.links.map linkToDict)),
        ("features", .arr (e.features.map featureToDict)),
        ("family", match e.family with
          | some f => familyToDict f
          | none => .null)]

/-! ### `_from_dict`

`none` results model the exceptions `_from_dict` can raise (`KeyError`,
`TypeError`, `fromisoformat` failures) plus the cases where a field holds a
JSON value of a shape the repository itself never writes. -/

/-- Required string field: `data[k]`, expected to be a string. -/
def jStr (j : Json) (k : String) : Option String :=
  match jLookup j k with
  | some (.str s) => some s
  | _ => none

/-- `p.get(k)` read back into `str | None`. -/
def jOptStr (j : Json) (k : String) : Option (Option String) :=
  match jLookup j k with
  | none => some none
  | some .null => some none
  | some (.str s) => some (some s)
  | some _ => none

/-- `p.get(k, default)` for a string default. -/
def jStrD (j : Json) (k dflt : String) : Option String :=
  match jLookup j k with
  | none => some dflt
  | some (.str s) => some s
  | some _ => none

/-- `data.get(k, [])` followed by iteration. -/
def jArrD (j : Json) (k : String) : Option (List Json) :=
  match jLookup j k with
  | none => some []
  | some (.arr l) => some l
  | some _ => none

/-- The element-by-element accumulation of the `for` loops in `_from_dict`:
fail as soon as one element fails. -/
def mapOpt {α : Type} (f : Json → Option α) : List Json → Option (List α)
  | [] => some []
  | x :: rest =>
    match f x with
    | none => none
    | some a => (mapOpt f rest).map (fun l => a :: l)

def paramFromDict (j : Json) : Option Parameter :=
  match jStr j "name", jOptStr j "display_name", jStrD j "type" "custom",
        jOptStr j "type_of_parameter", jOptStr j "units", jOptStr j "value" with
  | some n, some dn, some ty, some tp, some u, some v =>
    some { name := n, display_name := dn, type := ty,
           type_of_parameter := tp, units := u, value := v }
  | _, _, _, _, _, _ => none

def designFileFromDict (j : Json) : Option DesignFile :=
  match jStr j "name", jStr j "product", jStr j "product_version",
        jStr j "updated" with
  | some n, some p, some pv, some u =>
    some { name := n, product := p, product_version := pv,
           updated := PyDateTime.fromisoformat u }
  | _, _, _, _ => none

def catFromDict (j : Json) : Option Category :=
  (jStr j "name").map (fun n => { name := n })

def linkFromDict (j : Json) : Option Link :=
  let dfr : Option (Option DesignFile) :=
    match jLookup j "design_file" with
    | none => some none
    | some v => if jTruthy v then (designFileFromDict v).map some else some none
  match jStr j "rel", jStr j "type", jStr j "href", dfr with
  | some r, some t, some h, some df =>
    some { rel := r, type := t, href := h, design_file := df }
  | _, _, _, _ => none

def groupFromDict (j : Json) : Option ParameterGroup :=
  match jStr j "name", (jArrD j "parameters").bind (mapOpt paramFromDict) with
  | some n, some ps => some { name := n, parameters := ps }
  | _, _ => none

def featureFromDict (j : Json) : Option Feature :=
  match jStr j "name", (jArrD j "groups").bind (mapOpt groupFromDict) with
  | some n, some gs => some { name := n, groups := gs }
  | _, _ => none

def partFromDict (j : Json) : Option FamilyPart :=
  match jStr j "name", jStrD j "type" "user",
        (jArrD j "parameters").bind (mapOpt paramFromDict) with
  | some n, some t, some ps => some { name := n, type := t, parameters := ps }
  | _, _, _ => none

/-- `f_data.get("variation_count", 0)`. -/
def jIntD (j : Json) (k : String) (dflt : Int) : Option Int :=
  match jLookup j k with
  | none => some dflt
  | some (.num n) => some n
  | some _ => none

def familyFromDict (j : Json) : Option Family :=
  match jStrD j "type" "user", jIntD j "variation_count" 0,
        (jArrD j "parts").bind (mapOpt partFromDict) with
  | some t, some vc, some ps =>
    some { type := t, variation_count := vc, parts := ps }
  | _, _, _ => none

/-- `RevitFamilyJSONRepository._from_dict`.  Taxonomies are not read back:
the rebuilt entry always carries an empty taxonomy list. -/
def fromDict (j : Json) : Option RevitFamilyEntry :=
  let famr : Option (Option Family) :=
    match jLookup j "family" with
    | none => some none
    | some v => if jTruthy v then (familyFromDict v).map some else some none
  match jStr j "name", jStr j "id", jStr j "updated",
        (jArrD j "categories").bind (mapOpt catFromDict),
        (jArrD j "links").bind (mapOpt linkFromDict),
        (jArrD j "features").bind (mapOpt featureFromDict), famr with
  | some n, some i, some u, some cats, some lks, some fts, some fam =>
    some { name := n, id := i, updated := PyDateTime.fromisoformat u,
           taxonomies := [], categories := cats, links := lks,
           features := fts, family := fam }
  | _, _, _, _, _, _, _ => none

/-- `load(save(entry))`: serialize, write, read back, deserialize. -/
def saveLoad (e : RevitFamilyEntry) : Option RevitFamilyEntry :=
  fromDict (toDict e)

/-! ## XML repair (`_repair_xml`) -/

/-- The character class `[\x00-\x08\x0B\x0C\x0E-\x1F\x7F]` removed by the
first repair step. -/
def isCtrlChar (c : Char) : Bool :=
  c.toNat ≤ 8 || c.toNat = 11 || c.toNat = 12 ||
  (14 ≤ c.toNat && c.toNat ≤ 31) || c.toNat = 127

/-- Python `str.replace(pat, repl)`: replace every non-overlapping
occurrence, scanning left to right. -/
def replaceSub (pat repl : List Char) : List Char → List Char
  | [] => []
  | x :: rest =>
    if pat.isPrefixOf (x :: rest) then
      repl ++ replaceSub pat repl (List.drop (pat.length - 1) rest)
    else
      x :: replaceSub pat repl rest
termination_by l => l.length
decreasing_by
  · simp only [List.length_drop, List.length_cons]
    omega
  · simp [List.length_cons]

/-- Single-character `str.replace`. -/
def replaceChar (c : Char) (repl : List Char) : List Char → List Char
  | [] => []
  | x :: rest =>
    if x = c then repl ++ replaceChar c repl rest
    else x :: replaceChar c repl rest

/-- `\w` or `:`, the class `[\w:]` of the tag-restoration pattern (ASCII
reading of Python's `\w`). -/
def isWordColon (c : Char) : Bool :=
  c.isAlphanum || c = '_' || c = ':'

/-- One attempted match of `&lt;(\/?[\w:]+[^&]*?)&gt;` at the head of the
input.  Returns the captured group and the rest after the match.  Backtracking
semantics of the pattern collapse to: literal `&lt;`, optional `/`, at least
one `[\w:]` character, then a run of non-`&` characters, then `&gt;` (a lazy
`[^&]*?` can never step across an `&`, so the closing `&gt;` must sit at the
first `&` after the name). -/
def matchTagEscape (l : List Char) : Option (List Char × List Char) :=
  match l with
  | '&' :: 'l' :: 't' :: ';' :: core =>
    let (slash, r1) : List Char × List Char :=
      match core with
      | '/' :: r => (['/'], r)
      | _ => ([], core)
    let w := r1.takeWhile isWordColon
    if w.isEmpty then none
    else
      let r2 := r1.drop w.length
      let mid := r2.takeWhile (fun c => c ≠ '&')
      let r3 := r2.drop mid.length
      match r3 with
      | '&' :: 'g' :: 't' :: ';' :: r4 => some (slash ++ w ++ mid, r4)
      | _ => none
  | _ => none

/-- `re.sub(pattern, r"<\1>", s)` scanning: at each position, emit a
restored tag on a match, otherwise copy one character.  Fuel is the input
length plus one; each step consumes at least one character, so the fuel
never runs out. -/
def regexRestoreTagsF : Nat → List Char → List Char
  | 0, l => l
  | _ + 1, [] => []
  | fuel + 1, c :: rest =>
    match matchTagEscape (c :: rest) with
    | some (g, after) => '<' :: (g ++ '>' :: regexRestoreTagsF fuel after)
    | none => c :: regexRestoreTagsF fuel rest

def regexRestoreTags (l : List Char) : List Char :=
  regexRestoreTagsF (l.length + 1) l

/-- The bare declaration literal rewritten by repair step 2. -/
def xmlDeclPlain : List Char := "<?xml version=\"1.0\"?>".data

/-- Its replacement with an explicit encoding attribute. -/
def xmlDeclUtf8Decl : List Char := "<?xml version=\"1.0\" encoding=\"UTF-8\"?>".data

/-- `RevitFamilyXMLReader._repair_xml`: strip control characters, complete a
bare declaration, escape `&`, `<`, `>`, then restore tag-shaped escapes. -/
def repairXml (s : String) : String :=
  let l1 := s.data.filter (fun c => !isCtrlChar c)
  let l2 :=
    if containsSub ('<' :: "?xml".data) l1 && !containsSub "encoding=".data l1 then
      replaceSub xmlDeclPlain xmlDeclUtf8Decl l1
    else l1
  let l3 := replaceChar '&' ('&' :: "amp;".data) l2
  let l4 := replaceChar '<' ('&' :: "lt;".data) l3
  let l5 := replaceChar '>' ('&' :: "gt;".data) l4
  ⟨regexRestoreTags l5⟩

/-! ## Byte decoding

Bytes are `List Nat` with entries below 256.  Each decoder models the strict
(`errors="strict"`) behaviour of the corresponding Python codec: `none`
models `UnicodeDecodeError`. -/

/-- Decode one UTF-8 scalar at the head: `(codepoint, rest)`.  The lead-byte
ranges enforce shortest forms, exclude surrogates and cap at U+10FFFF, as
CPython's strict UTF-8 codec does. -/
def utf8DecodeOne : List Nat → Option (Nat × List Nat)
  | [] => none
  | b :: rest =>
    if b < 0x80 then some (b, rest)
    else if 0xC2 ≤ b && b ≤ 0xDF then
      match rest with
      | b2 :: rest2 =>
        if 0x80 ≤ b2 && b2 ≤ 0xBF then
          some ((b - 0xC0) * 0x40 + (b2 - 0x80), rest2)
        else none
      | [] => none
    else if 0xE0 ≤ b && b ≤ 0xEF then
      match rest with
      | b2 :: b3 :: rest3 =>
        let lo2 := if b = 0xE0 then 0xA0 else 0x80
        let hi2 := if b = 0xED then 0x9F else 0xBF
        if lo2 ≤ b2 && b2 ≤ hi2 && 0x80 ≤ b3 && b3 ≤ 0xBF then
          some ((b - 0xE0) * 0x1000 + (b2 - 0x80) * 0x40 + (b3 - 0x80), rest3)
        else none
      | _ => none
    else if 0xF0 ≤ b && b ≤ 0xF4 then
      match rest with
      | b2 :: b3 :: b4 :: rest4 =>
        let lo2 := if b = 0xF0 then 0x90 else 0x80
        let hi2 := if b = 0xF4 then 0x8F else 0xBF
        if lo2 ≤ b2 && b2 ≤ hi2 && 0x80 ≤ b3 && b3 ≤ 0xBF &&
           0x80 ≤ b4 && b4 ≤ 0xBF then
          some ((b - 0xF0) * 0x40000 + (b2 - 0x80) * 0x1000 +
                (b3 - 0x80) * 0x40 + (b4 - 0x80), rest4)
        else none
      | _ => none
    else none

/-- Fuel-driven UTF-8 decoding loop; each step consumes at least one byte,
so fuel = length suffices. -/
def utf8DecodeF : Nat → List Nat → Option (List Char)
  | _, [] => some []
  | 0, _ :: _ => none
  | fuel + 1, l =>
    match utf8DecodeOne l with
    | none => none
    | some (cp, rest) => (utf8DecodeF fuel rest).map (Char.ofNat cp :: ·)

def utf8Decode (bs : List Nat) : Option (List Char) :=
  utf8DecodeF bs.length bs

/-- Split bytes into UTF-16 code units (`be` = big endian); fails on odd
length ("truncated data"). -/
def utf16Units (be : Bool) : List Nat → Option (List Nat)
  | [] => some []
  | [_] => none
  | b0 :: b1 :: rest =>
    let u := if be then b0 * 256 + b1 else b0 + b1 * 256
    (utf16Units be rest).map (u :: ·)

/-- Combine UTF-16 code units into scalars, pairing surrogates; unpaired
surrogates fail. -/
def utf16Combine : List Nat → Option (List Char)
  | [] => some []
  | [u] =>
    if u < 0xD800 || 0xE000 ≤ u then some [Char.ofNat u] else none
  | u :: u2 :: rest =>
    if u < 0xD800 || 0xE000 ≤ u then
      (utf16Combine (u2 :: rest)).map (Char.ofNat u :: ·)
    else if u ≤ 0xDBFF then
      if 0xDC00 ≤ u2 && u2 ≤ 0xDFFF then
        (utf16Combine rest).map
          (Char.ofNat (0x10000 + (u - 0xD800) * 0x400 + (u2 - 0xDC00)) :: ·)
      else none
    else none

/-- Python's `"utf-16"` codec: honour a BOM when present, default to little
endian otherwise. -/
def utf16Decode (bs : List Nat) : Option (List Char) :=
  match bs with
  | 0xFF :: 0xFE :: rest => (utf16Units false rest).bind utf16Combine
  | 0xFE :: 0xFF :: rest => (utf16Units true rest).bind utf16Combine
  | _ => (utf16Units false bs).bind utf16Combine

/-- Latin-1 (ISO-8859-1): every byte maps to the code point of the same
value; it never fails on genuine bytes. -/
def latin1Decode : List Nat → Option (List Char)
  | [] => some []
  | b :: rest =>
    if b < 256 then (latin1Decode rest).map (Char.ofNat b :: ·) else none

/-- The CP1252 mapping of the 0x80–0x9F block; `none` marks the five
undefined bytes (0x81, 0x8D, 0x8F, 0x90, 0x9D). -/
def cp1252Hi (b : Nat) : Option Nat :=
  match b with
  | 0x80 => some 0x20AC
  | 0x82 => some 0x201A
  | 0x83 => some 0x0192
  | 0x84 => some 0x201E
  | 0x85 => some 0x2026
  | 0x86 => some 0x2020
  | 0x87 => some 0x2021
  | 0x88 => some 0x02C6
  | 0x89 => some 0x2030
  | 0x8A => some 0x0160
  | 0x8B => some 0x2039
  | 0x8C => some 0x0152
  | 0x8E => some 0x017D
  | 0x91 => some 0x2018
  | 0x92 => some 0x2019
  | 0x93 => some 0x201C
  | 0x94 => some 0x201D
  | 0x95 => some 0x2022
  | 0x96 => some 0x2013
  | 0x97 => some 0x2014
  | 0x98 => some 0x02DC
  | 0x99 => some 0x2122
  | 0x9A => some 0x0161
  | 0x9B => some 0x203A
  | 0x9C => some 0x0153
  | 0x9E => some 0x017E
  | 0x9F => some 0x0178
  | _ => none

def cp1252Decode : List Nat → Option (List Char)
  | [] => some []
  | b :: rest =>
    if b < 0x80 || (0xA0 ≤ b && b < 256) then
      (cp1252Decode rest).map (Char.ofNat b :: ·)
    else
      match cp1252Hi b with
      | some cp => (cp1252Decode rest).map (Char.ofNat cp :: ·)
      | none => none

/-- The candidate encodings, in the fixed order of the source:
`["utf-8", "utf-16", "latin-1", "cp1252"]`. -/
inductive PyEncoding where
  | utf8 | utf16 | latin1 | cp1252
deriving DecidableEq

def decodeWith : PyEncoding → List Nat → Option String
  | .utf8, bs => (utf8Decode bs).map (fun l => ⟨l⟩)
  | .utf16, bs => (utf16Decode bs).map (fun l => ⟨l⟩)
  | .latin1, bs => (latin1Decode bs).map (fun l => ⟨l⟩)
  | .cp1252, bs => (cp1252Decode bs).map (fun l => ⟨l⟩)

def encodingOrder : List PyEncoding :=
  [.utf8, .utf16, .latin1, .cp1252]

/-- First defined value in a list of attempts. -/
def firstSome {α : Type} : List (Option α) → Option α
  | [] => none
  | some a :: _ => some a
  | none :: rest => firstSome rest

/-- The byte-decoding loop at the top of `read_from_xml_string` (lines
219–228): try each encoding, `break` on the first success; the `for`/`else`
`raise ValueError` branch is modelled by `none`.  No well-formedness test is
performed here. -/
def decodeXmlContent (bs : List Nat) : Option String :=
  firstSome (encodingOrder.map (fun e => decodeWith e bs))

/-! ## XML well-formedness

Models the success/failure of `xml.etree.ElementTree.fromstring` (expat) on
the prefix-free documents handled in this development: optional declaration,
one root element, matched tags, attributes, text whose `&` starts a valid
entity or character reference.  Undeclared-prefix names (a `:` in an element
name) are rejected, as expat does for documents that declare no prefix. -/

def sq : Char := Char.ofNat 39

def isXmlWs (c : Char) : Bool :=
  c = ' ' || c = '\t' || c = '\n' || c = '\r'

def isNameStartChar (c : Char) : Bool := c.isAlpha || c = '_'

def isNameChar (c : Char) : Bool := c.isAlphanum || c = '_' || c = '-' || c = '.'

/-- Valid XML 1.0 character, by code point. -/
def natXmlChar (n : Nat) : Bool :=
  n = 9 || n = 10 || n = 13 || (0x20 ≤ n && n ≤ 0xD7FF) ||
  (0xE000 ≤ n && n ≤ 0xFFFD) || (0x10000 ≤ n && n ≤ 0x10FFFF)

def isXmlChar (c : Char) : Bool := natXmlChar c.toNat

/-- Parse an XML name: a name-start character followed by name characters. -/
def parseName (l : List Char) : Option (List Char × List Char) :=
  match l with
  | c :: rest =>
    if isNameStartChar c then
      let tailChars := rest.takeWhile isNameChar
      some (c :: tailChars, rest.drop tailChars.length)
    else none
  | [] => none

def hexVal (c : Char) : Option Nat :=
  if c.isDigit then some (c.toNat - 48)
  else if 'a' ≤ c && c ≤ 'f' then some (c.toNat - 87)
  else if 'A' ≤ c && c ≤ 'F' then some (c.toNat - 70)
  else none

def hexNum (l : List Char) : Option Nat :=
  l.foldl (fun acc c => acc.bind (fun a => (hexVal c).map (fun d => a * 16 + d)))
    (some 0)

def decNum (l : List Char) : Option Nat :=
  l.foldl (fun acc c =>
    acc.bind (fun a => if c.isDigit then some (a * 10 + (c.toNat - 48)) else none))
    (some 0)

/-- Parse what follows a `&`: one of the five predefined entities or a
character reference to a valid XML character; returns the rest. -/
def parseEntityRest (l : List Char) : Option (List Char) :=
  if "amp;".data.isPrefixOf l then some (l.drop 4)
  else if "lt;".data.isPrefixOf l then some (l.drop 3)
  else if "gt;".data.isPrefixOf l then some (l.drop 3)
  else if "quot;".data.isPrefixOf l then some (l.drop 5)
  else if "apos;".data.isPrefixOf l then some (l.drop 5)
  else
    match l with
    | '#' :: 'x' :: rest =>
      let ds := rest.takeWhile (fun c => (hexVal c).isSome)
      if ds.isEmpty then none
      else
        match rest.drop ds.length with
        | ';' :: r2 =>
          match hexNum ds with
          | some n => if natXmlChar n then some r2 else none
          | none => none
        | _ => none
    | '#' :: rest =>
      let ds := rest.takeWhile Char.isDigit
      if ds.isEmpty then none
      else
        match rest.drop ds.length with
        | ';' :: r2 =>
          match decNum ds with
          | some n => if natXmlChar n then some r2 else none
          | none => none
        | _ => none
    | _ => none

/-- Attribute value body after the opening quote `q`: runs to the closing
quote; no raw `<`; `&` must start a valid entity. -/
def parseAttrValueF : Nat → Char → List Char → Option (List Char)
  | 0, _, _ => none
  | fuel + 1, q, l =>
    match l with
    | [] => none
    | c :: rest =>
      if c = q then some rest
      else if c = '<' then none
      else if c = '&' then (parseEntityRest rest).bind (parseAttrValueF fuel q)
      else if isXmlChar c then parseAttrValueF fuel q rest
      else none

mutual

/-- Parse one element starting at `<`; returns the input after the element. -/
def parseElementF : Nat → List Char → Option (List Char)
  | 0, _ => none
  | fuel + 1, l =>
    match l with
    | '<' :: rest =>
      match parseName rest with
      | some (n, r1) => parseAttrsF fuel n r1
      | none => none
    | _ => none

/-- Attribute list and tag close for an element named `n`. -/
def parseAttrsF : Nat → List Char → List Char → Option (List Char)
  | 0, _, _ => none
  | fuel + 1, n, l =>
    match l with
    | '>' :: rest => parseContentF fuel n rest
    | '/' :: '>' :: rest => some rest
    | c :: rest =>
      if isXmlWs c then
        let r := rest.dropWhile isXmlWs
        match r with
        | '>' :: r2 => parseContentF fuel n r2
        | '/' :: '>' :: r2 => some r2
        | _ =>
          match parseName r with
          | some (_, r2) =>
            let r3 := r2.dropWhile isXmlWs
            match r3 with
            | '=' :: r4 =>
              let r5 := r4.dropWhile isXmlWs
              match r5 with
              | q :: r6 =>
                if q = '"' || q = sq then
                  (parseAttrValueF fuel q r6).bind (parseAttrsF fuel n)
                else none
              | [] => none
            | _ => none
          | none => none
      else none
    | [] => none

/-- Element content for an element named `n`, through its closing tag. -/
def parseContentF : Nat → List Char → List Char → Option (List Char)
  | 0, _, _ => none
  | fuel + 1, n, l =>
    match l with
    | [] => none
    | '<' :: '/' :: rest =>
      match parseName rest with
      | some (m, r1) =>
        if m = n then
          match r1.dropWhile isXmlWs with
          | '>' :: r2 => some r2
          | _ => none
        else none
      | none => none
    | '<' :: rest => (parseElementF fuel ('<' :: rest)).bind (parseContentF fuel n)
    | '&' :: rest => (parseEntityRest rest).bind (parseContentF fuel n)
    | c :: rest => if isXmlChar c then parseContentF fuel n rest else none

end

/-- Quoted literal in an XML declaration. -/
def parseQuoted (valid : Char → Bool) (l : List Char) : Option (List Char × List Char) :=
  match l with
  | q :: rest =>
    if q = '"' || q = sq then
      let v := rest.takeWhile (fun c => c ≠ q)
      if v.all valid && !v.isEmpty then
        match rest.drop v.length with
        | c :: r2 => if c = q then some (v, r2) else none
        | [] => none
      else none
    else none
  | [] => none

/-- After the version literal: optional encoding pseudo-attribute, then
`?>`. -/
def parseDeclTail (l : List Char) : Option (List Char) :=
  let ws := l.takeWhile isXmlWs
  let r := l.drop ws.length
  if "?>".data.isPrefixOf r then some (r.drop 2)
  else if ws.isEmpty then none
  else if "encoding".data.isPrefixOf r then
    match (r.drop 8).dropWhile isXmlWs with
    | '=' :: r3 =>
      match parseQuoted (fun c => c.isAlphanum || c = '.' || c = '_' || c = '-')
              (r3.dropWhile isXmlWs) with
      | some (_, r4) =>
        let r5 := r4.dropWhile isXmlWs
        if "?>".data.isPrefixOf r5 then some (r5.drop 2) else none
      | none => none
    | _ => none
  else none

/-- Optional XML declaration at the very start; text beginning `<?xml` must
be a valid declaration. -/
def parseXmlDeclOpt (l : List Char) : Option (List Char) :=
  if "<?xml".data.isPrefixOf l then
    let r := l.drop 5
    let wsn := r.takeWhile isXmlWs
    if wsn.isEmpty then none
    else
      let r2 := r.drop wsn.length
      if "version".data.isPrefixOf r2 then
        match (r2.drop 7).dropWhile isXmlWs with
        | '=' :: r3 =>
          match parseQuoted (fun c => c.isDigit || c = '.') (r3.dropWhile isXmlWs) with
          | some (v, r4) => if v = "1.0".data then parseDeclTail r4 else none
          | none => none
        | _ => none
      else none
  else some l

/-- Whether `ET.fromstring` succeeds on the text: optional declaration, one
root element, only whitespace after it. -/
def parseOkL (l : List Char) : Bool :=
  match parseXmlDeclOpt l with
  | none => false
  | some r =>
    let r2 := r.dropWhile isXmlWs
    match parseElementF (4 * r2.length + 8) r2 with
    | some rest => rest.all isXmlWs
    | none => false

def parseOk (s : String) : Bool := parseOkL s.data

/-! ## Binary XML locator (`_extract_xml_from_binary` and its tiers) -/

/-- ASCII bytes of a pattern or test string. -/
def strBytes (s : String) : List Nat := s.data.map Char.toNat

/-- `\s` of the bytes regex: `[ \t\n\r\f\v]`. -/
def isWsByte (b : Nat) : Bool :=
  b = 32 || b = 9 || b = 10 || b = 13 || b = 12 || b = 11

/-- `\w` of the bytes regex: `[a-zA-Z0-9_]`. -/
def isWordByte (b : Nat) : Bool :=
  (48 ≤ b && b ≤ 57) || (65 ≤ b && b ≤ 90) || (97 ≤ b && b ≤ 122) || b = 95

/-- First index of `a`. -/
def findIdxOf {α : Type} [DecidableEq α] (a : α) : List α → Option Nat
  | [] => none
  | x :: rest => if x = a then some 0 else (findIdxOf a rest).map (· + 1)

/-- First start index of the contiguous pattern `pat`. -/
def findSubIdx {α : Type} [DecidableEq α] (pat : List α) (l : List α) : Option Nat :=
  if pat.isPrefixOf l then some 0
  else
    match l with
    | [] => none
    | _ :: rest => (findSubIdx pat rest).map (· + 1)

/-- Match of `XML_START_PATTERN` = `<\?xml\s+version="1\.0"[^>]*\?>` at the
head of the input, returning the match length.  `[^>]*` cannot cross a `>`,
so the match must end at the first `>` after the version literal, preceded
by `?`. -/
def matchXmlDeclPatAt (bs : List Nat) : Option Nat :=
  if (strBytes "<?xml").isPrefixOf bs then
    let r := bs.drop 5
    let w := (r.takeWhile isWsByte).length
    if w = 0 then none
    else
      let r2 := r.drop w
      if (strBytes "version=\"1.0\"").isPrefixOf r2 then
        let r3 := r2.drop 13
        match findIdxOf 62 r3 with
        | none => none
        | some g =>
          if 1 ≤ g ∧ (r3.take g).getLast? = some 63 then
            some (5 + w + 13 + g + 1)
          else none
      else none
  else none

/-- Match of `ENTRY_START_PATTERN` = `<entry[^>]*>` at the head; ends at the
first `>` after the literal. -/
def matchEntryStartAt (bs : List Nat) : Option Nat :=
  if (strBytes "<entry").isPrefixOf bs then
    match findIdxOf 62 (bs.drop 6) with
    | some g => some (6 + g + 1)
    | none => none
  else none

/-- Match of `<entry[^>]*xmlns[^>]*>` at the head: like `<entry[^>]*>` but
`xmlns` must occur before the closing `>`. -/
def matchEntryXmlnsAt (bs : List Nat) : Option Nat :=
  if (strBytes "<entry").isPrefixOf bs then
    match findIdxOf 62 (bs.drop 6) with
    | some g =>
      if containsSub (strBytes "xmlns") ((bs.drop 6).take g) then
        some (6 + g + 1)
      else none
    | none => none
  else none

/-- Match of `<\w+[^>]*xmlns[^>]*>` at the head: `<`, a word byte, then
`xmlns` somewhere strictly after the first word byte and before the first
`>`. -/
def matchTagXmlnsAt (bs : List Nat) : Option Nat :=
  match bs with
  | 60 :: b :: rest =>
    if isWordByte b then
      match findIdxOf 62 rest with
      | some g =>
        if containsSub (strBytes "xmlns") (rest.take g) then
          some (2 + g + 1)
        else none
      | none => none
    else none
  | _ => none

/-- `re.search`: first match position and length. -/
def searchPat (matchAt : List Nat → Option Nat) : List Nat → Option (Nat × Nat)
  | [] =>
    match matchAt [] with
    | some len => some (0, len)
    | none => none
  | b :: rest =>
    match matchAt (b :: rest) with
    | some len => some (0, len)
    | none => (searchPat matchAt rest).map (fun p => (p.1 + 1, p.2))

/-- Tier-1 validation loop: first encoding whose decode succeeds and whose
decoded text is well-formed as-is.  No repair appears here. -/
def tryEncodingsParse (bs : List Nat) : Option String :=
  firstSome (encodingOrder.map (fun e =>
    match decodeWith e bs with
    | some t => if parseOk t then some t else none
    | none => none))

def endEntryBytes : List Nat := strBytes "</entry>"

/-- `RevitFamilyXMLReader._find_complete_xml_document`. -/
def findCompleteXmlDocument (bs : List Nat) : String :=
  match searchPat matchXmlDeclPatAt bs with
  | none => ""
  | some (s, _) =>
    match findSubIdx endEntryBytes (bs.drop s) with
    | none => ""
    | some e =>
      let xmlBytes := (bs.drop s).take (e + 8)
      (tryEncodingsParse xmlBytes).getD ""

/-- The declaration synthesized by tiers 2/3 (and by
`_extract_xml_from_binary` after tier 2). -/
def synthDecl : String := "<?xml version=\"1.0\" encoding=\"UTF-8\"?>\n"

/-- Tier-2 validation loop: parse with the synthesized declaration prepended
but return the bare content. -/
def tryEncodingsEntryBlock (bs : List Nat) : Option String :=
  firstSome (encodingOrder.map (fun e =>
    match decodeWith e bs with
    | some t => if parseOk (synthDecl ++ t) then some t else none
    | none => none))

/-- `RevitFamilyXMLReader._find_entry_block`. -/
def findEntryBlock (bs : List Nat) : String :=
  match searchPat matchEntryStartAt bs with
  | none => ""
  | some (s, _) =>
    match findSubIdx endEntryBytes (bs.drop s) with
    | none => ""
    | some e =>
      (tryEncodingsEntryBlock ((bs.drop s).take (e + 8))).getD ""

/-- Tier-3 validation loop: prepend a declaration when missing and return
the possibly prefixed text. -/
def tryEncodingsAnyBlock (bs : List Nat) : Option String :=
  firstSome (encodingOrder.map (fun e =>
    match decodeWith e bs with
    | some t =>
      let t2 := if strStartsWith t "<?xml" then t else synthDecl ++ t
      if parseOk t2 then some t2 else none
    | none => none))

/-- `re.finditer`: non-overlapping matches, scanning left to right. -/
def finditerAux (matchAt : List Nat → Option Nat) :
    Nat → List Nat → Nat → List (Nat × Nat)
  | 0, _, _ => []
  | fuel + 1, suffix, off =>
    match searchPat matchAt suffix with
    | none => []
    | some (s, len) =>
      (off + s, len) :: finditerAux matchAt fuel (suffix.drop (s + len)) (off + s + len)

def finditer (matchAt : List Nat → Option Nat) (bs : List Nat) : List (Nat × Nat) :=
  finditerAux matchAt (bs.length + 1) bs 0

/-- Tier-3 processing of one match: read the tag name with `<(\w+)`, find
its closing tag, validate the range. -/
def anyBlockCandidate (bs : List Nat) (start : Nat) : Option String :=
  let sub := bs.drop start
  match sub with
  | 60 :: rest =>
    let w := (rest.takeWhile isWordByte).length
    if w = 0 then none
    else
      let tagName := rest.take w
      let endPat := strBytes "</" ++ tagName ++ [62]
      match findSubIdx endPat sub with
      | none => none
      | some e => tryEncodingsAnyBlock (sub.take (e + w + 3))
  | _ => none

def firstCandidate (bs : List Nat) : List (Nat × Nat) → Option String
  | [] => none
  | (s, _) :: rest =>
    match anyBlockCandidate bs s with
    | some t => some t
    | none => firstCandidate bs rest

/-- `RevitFamilyXMLReader._find_any_xml_block`. -/
def findAnyXmlBlock (bs : List Nat) : String :=
  (firstSome
    ([matchEntryXmlnsAt, matchTagXmlnsAt, matchEntryStartAt].map
      (fun p => firstCandidate bs (finditer p bs)))).getD ""

/-- `RevitFamilyXMLReader._extract_xml_from_binary`: the three tiers, with a
declaration synthesized after tier 2 when missing. -/
def extractXmlFromBinary (bs : List Nat) : String :=
  let x1 := findCompleteXmlDocument bs
  if x1 ≠ "" then x1
  else
    let x2 := findEntryBlock bs
    if x2 ≠ "" then
      if strStartsWith x2 "<?xml" then x2 else synthDecl ++ x2
    else
      findAnyXmlBlock bs

/-! ## Helper lemmas -/

/-- The extraction loops are filter-then-map over the children. -/
theorem extractParams_eq_filter (skip : XmlElement → Bool) (l : List XmlElement) :
    extractParams skip l =
      (l.filter (fun c => !skip c)).map createParameterFromElement := by
  induction l with
  | nil => rfl
  | cons c rest ih =>
    by_cases h : skip c = true
    · simp [extractParams, List.filter, h, ih]
    · simp only [Bool.not_eq_true] at h
      simp [extractParams, List.filter, h, ih]

theorem partSkip_spec (c : XmlElement) :
    partSkip c =
      (decide (c.tag = "{http://www.w3.org/2005/Atom}title") ||
       decide (lowerAscii (cleanTagName c.tag) = "title")) := rfl

theorem groupSkip_spec (c : XmlElement) :
    groupSkip c =
      (strStartsWith c.tag "{urn:schemas-autodesk-com:partatom}" ||
       decide (lowerAscii (cleanTagName c.tag) = "title")) := rfl

/-! ## Claims -/

/-- C1 (amended). For a family part, a child is skipped exactly when it is
the syndication-namespace title element OR its namespace-stripped local name
case-insensitively equals "title" — so a child named `Title` in no namespace
or in the vendor namespace IS skipped there too, contrary to the original
claim.  For a parameter group, a child is skipped exactly when its tag
starts with the bracketed vendor namespace OR its namespace-stripped local
name case-insensitively equals "title".  Every non-skipped child is
extracted as a Parameter. -/
theorem claim_C1 (elem : XmlElement) :
    getParametersFromPart elem =
      (elem.children.filter (fun c =>
        !(decide (c.tag = "{http://www.w3.org/2005/Atom}title") ||
          decide (lowerAscii (cleanTagName c.tag) = "title")))).map
        createParameterFromElement
  ∧ getParametersFromGroup elem =
      (elem.children.filter (fun c =>
        !(strStartsWith c.tag "{urn:schemas-autodesk-com:partatom}" ||
          decide (lowerAscii (cleanTagName c.tag) = "title")))).map
        createParameterFromElement := by
  constructor
  · rw [getParametersFromPart, extractParams_eq_filter]
    simp only [partSkip_spec]
  · rw [getParametersFromGroup, extractParams_eq_filter]
    simp only [groupSkip_spec]

/-- C1 counterexample: a family-part child named `Title` in no namespace is
skipped (extraction yields no parameter), where the claim says it would be
extracted as a Parameter. -/
theorem claim_C1_counterexample :
    getParametersFromPart
      (.mk "part" [] none [.mk "Title" [] (some "X") []]) = [] := by
  rfl

/-- C8. Extracting `variation_count` from a family element never fails:
a missing `variationCount` element yields 0, non-integer text (such as
"abc") yields 0, and integer text "12" yields 12. -/
theorem claim_C8 (fe : XmlElement) :
    (fe.findChild (qualify vendorUri "variationCount") = none →
        variationCountOf fe = 0)
  ∧ (∀ el, fe.findChild (qualify vendorUri "variationCount") = some el →
        el.text = some "abc" → variationCountOf fe = 0)
  ∧ (∀ el, fe.findChild (qualify vendorUri "variationCount") = some el →
        el.text = some "12" → variationCountOf fe = 12) := by
  refine ⟨fun h => ?_, fun el h ht => ?_, fun el h ht => ?_⟩
  · simp [variationCountOf, h]
  · simp [variationCountOf, h, ht]
    decide
  · simp [variationCountOf, h, ht]
    decide

/-- A `variationCount` child with the given text (example input for C8). -/
def vcChild (t : String) : XmlElement :=
  .mk "{urn:schemas-autodesk-com:partatom}variationCount" [] (some t) []

/-- A family element holding one `variationCount` child (example for C8). -/
def vcFam (t : String) : XmlElement := .mk "f" [] none [vcChild t]

/-- C8 witness: concrete family elements for the three cases. -/
theorem claim_C8_witness :
    variationCountOf (vcFam "abc") = 0
  ∧ variationCountOf (vcFam "12") = 12
  ∧ variationCountOf (.mk "f" [] none []) = 0 :=
  ⟨(claim_C8 (vcFam "abc")).2.1 (vcChild "abc") rfl rfl,
   (claim_C8 (vcFam "12")).2.2 (vcChild "12") rfl rfl,
   (claim_C8 (.mk "f" [] none [])).1 rfl⟩

/-! ### Repair lemmas (C2) -/

/-- Characters repair leaves alone: not stripped, not escaped. -/
def plainChar (c : Char) : Bool :=
  !isCtrlChar c && !(c == '&') && !(c == '<') && !(c == '>')

theorem containsSub_false {α : Type} [DecidableEq α] (a : α) (pat l : List α)
    (h : a ∉ l) : containsSub (a :: pat) l = false := by
  induction l with
  | nil => rfl
  | cons x rest ih =>
    simp only [List.mem_cons, not_or] at h
    simp [containsSub, List.isPrefixOf, ih h.2]
    exact fun hax => absurd hax h.1

theorem replaceChar_id (c : Char) (repl l : List Char) (h : c ∉ l) :
    replaceChar c repl l = l := by
  induction l with
  | nil => rfl
  | cons x rest ih =>
    simp only [List.mem_cons, not_or] at h
    simp [replaceChar, Ne.symm h.1, ih h.2]

theorem matchTagEscape_of_head_ne (c : Char) (rest : List Char) (h : c ≠ '&') :
    matchTagEscape (c :: rest) = none := by
  unfold matchTagEscape
  split <;> simp_all

theorem regexRestore_id (fuel : Nat) (l : List Char) (h : '&' ∉ l) :
    regexRestoreTagsF fuel l = l := by
  induction fuel generalizing l with
  | zero => rfl
  | succ n ih =>
    match l with
    | [] => rfl
    | c :: rest =>
      simp only [List.mem_cons, not_or] at h
      rw [regexRestoreTagsF, matchTagEscape_of_head_ne c rest (Ne.symm h.1),
        ih rest h.2]

/-- On strings made of plain characters repair is the identity. -/
theorem repair_fixes_plain (x : String) (h : x.data.all plainChar = true) :
    repairXml x = x := by
  obtain ⟨l⟩ := x
  simp only [List.all_eq_true] at h
  have hctrl : ∀ c ∈ l, (!isCtrlChar c) = true := fun c hc => by
    have := h c hc; simp [plainChar] at this; simp [this.1]
  have hamp : '&' ∉ l := fun hc => by
    have := h _ hc; simp [plainChar] at this
  have hlt : '<' ∉ l := fun hc => by
    have := h _ hc; simp [plainChar] at this
  have hgt : '>' ∉ l := fun hc => by
    have := h _ hc; simp [plainChar] at this
  have h1 : l.filter (fun c => !isCtrlChar c) = l := List.filter_eq_self.mpr hctrl
  have h2 : containsSub ('<' :: "?xml".data) l = false :=
    containsSub_false '<' "?xml".data l hlt
  have h3 : replaceChar '&' ('&' :: "amp;".data) l = l :=
    replaceChar_id _ _ _ hamp
  have h4 : replaceChar '<' ('&' :: "lt;".data) l = l :=
    replaceChar_id _ _ _ hlt
  have h5 : replaceChar '>' ('&' :: "gt;".data) l = l :=
    replaceChar_id _ _ _ hgt
  have h6 : regexRestoreTags l = l := regexRestore_id _ l hamp
  simp [repairXml, h1, h2, h3, h4, h5, h6]

/-- C2 (amended). Repair is NOT idempotent in general (see the
counterexample on "&", whose ampersand is re-escaped by every pass); it is
idempotent on strings containing no control characters and none of `&`,
`<`, `>`, where a single pass already acts as the identity. -/
theorem claim_C2 (x : String) (h : x.data.all plainChar = true) :
    repairXml x = x ∧ repairXml (repairXml x) = repairXml x := by
  have hx := repair_fixes_plain x h
  exact ⟨hx, by rw [hx]; exact hx⟩

/-- C2 witness: the plain string "abc". -/
theorem claim_C2_witness :
    ("abc" : String).data.all plainChar = true ∧
    (repairXml "abc" = "abc" ∧ repairXml (repairXml "abc") = repairXml "abc") :=
  ⟨by decide, claim_C2 "abc" (by decide)⟩

/-- C2 counterexample: `repair(repair("&")) = "&amp;amp;"` differs from
`repair("&") = "&amp;"`, refuting idempotence as stated. -/
theorem claim_C2_counterexample :
    repairXml (repairXml "&") ≠ repairXml "&" := by decide

/-- C9. The post-extraction validator only emits diagnostics: the entity
returned by `read_from_xml_string` after validation is the entity it was
given, unchanged in every field, whatever the parameter names contain. -/
theorem claim_C9 (entry : RevitFamilyEntry) :
    (validateAndReturn entry).1 = entry := rfl

/-! ### Round-trip lemmas (C4, C5) -/

theorem paramRound (p : Parameter) : paramFromDict (paramToDict p) = some p := by
  rcases p with ⟨n, dn, ty, tp, u, v⟩
  rcases dn with _ | a <;> rcases tp with _ | b <;> rcases u with _ | c <;>
    rcases v with _ | d <;> rfl

theorem designRound (df : DesignFile) :
    designFileFromDict (designFileToDict df) = some df := by
  rcases df with ⟨n, p, pv, ⟨u⟩⟩
  rfl

theorem catRound (c : Category) :
    catFromDict (Json.obj [("name", Json.str c.name)]) = some c := by
  rcases c with ⟨n⟩
  rfl

theorem mapOpt_round {α : Type} (f : α → Json) (g : Json → Option α)
    (h : ∀ a, g (f a) = some a) (l : List α) :
    mapOpt g (l.map f) = some l := by
  induction l with
  | nil => rfl
  | cons a rest ih => simp [List.map, mapOpt, h, ih]

theorem linkRound (l : Link) : linkFromDict (linkToDict l) = some l := by
  rcases l with ⟨r, t, h, _ | df⟩
  · rfl
  · have h1 : designFileFromDict (designFileToDict df) = some df := designRound df
    simp only [designFileToDict] at h1
    simp [linkFromDict, linkToDict, jStr, jLookup, jTruthy, designFileToDict, h1,
      List.find?]

theorem groupRound (g : ParameterGroup) : groupFromDict (groupToDict g) = some g := by
  rcases g with ⟨n, ps⟩
  have h1 := mapOpt_round paramToDict paramFromDict paramRound ps
  simp [groupFromDict, groupToDict, jStr, jArrD, jLookup, List.find?, h1]

theorem featureRound (f : Feature) : featureFromDict (featureToDict f) = some f := by
  rcases f with ⟨n, gs⟩
  have h1 := mapOpt_round groupToDict groupFromDict groupRound gs
  simp [featureFromDict, featureToDict, jStr, jArrD, jLookup, List.find?, h1]

theorem partRound (p : FamilyPart) : partFromDict (partToDict p) = some p := by
  rcases p with ⟨n, t, ps⟩
  have h1 := mapOpt_round paramToDict paramFromDict paramRound ps
  simp [partFromDict, partToDict, jStr, jStrD, jArrD, jLookup, List.find?, h1]

theorem famRound (f : Family) : familyFromDict (familyToDict f) = some f := by
  rcases f with ⟨t, vc, ps⟩
  have h1 := mapOpt_round partToDict partFromDict partRound ps
  simp [familyFromDict, familyToDict, jStrD, jIntD, jArrD, jLookup, List.find?, h1]

/-- The persisted-and-reloaded entry: identical except for taxonomies. -/
theorem saveLoad_round (e : RevitFamilyEntry) :
    saveLoad e = some { e with taxonomies := [] } := by
  rcases e with ⟨n, i, ⟨u⟩, tax, cats, lks, fts, fam⟩
  have hc := mapOpt_round (fun c => Json.obj [("name", Json.str c.name)])
    catFromDict catRound cats
  have hl := mapOpt_round linkToDict linkFromDict linkRound lks
  have hf := mapOpt_round featureToDict featureFromDict featureRound fts
  rcases fam with _ | f
  · simp [saveLoad, fromDict, toDict, jStr, jArrD, jLookup, jTruthy, List.find?,
      hc, hl, hf, PyDateTime.fromisoformat, PyDateTime.isoformat]
  · have hm := famRound f
    simp only [familyToDict] at hm
    simp [saveLoad, fromDict, toDict, jStr, jArrD, jLookup, jTruthy, familyToDict,
      List.find?, hc, hl, hf, hm, PyDateTime.fromisoformat, PyDateTime.isoformat]

/-- C4 (amended). The save operation does NOT write taxonomies — the
serialized document carries no "taxonomies" key at all — and the load
operation reconstitutes them as the empty list, so taxonomies survive
neither save nor load. -/
theorem claim_C4 (e : RevitFamilyEntry) :
    (jLookup (toDict e) "taxonomies").isNone = true ∧
    (saveLoad e).map RevitFamilyEntry.taxonomies = some [] := by
  refine ⟨rfl, ?_⟩
  rw [saveLoad_round]
  rfl

/-- An entry carrying a taxonomy (example input for C4). -/
def entryWithTaxonomy : RevitFamilyEntry :=
  { name := "n", id := "i", updated := ⟨"2024-01-01T00:00:00"⟩,
    taxonomies := [⟨"term", "label"⟩] }

/-- C4 counterexample: an entry with a non-empty taxonomy list is saved to a
document with no "taxonomies" key, where the claim says the taxonomies are
present in the persisted output. -/
theorem claim_C4_counterexample :
    (jLookup (toDict entryWithTaxonomy) "taxonomies").isNone = true ∧
    entryWithTaxonomy.taxonomies ≠ [] :=
  ⟨rfl, by decide⟩

/-- C5. `load(save(entry))` reproduces every field of the entry — name, id,
updated, categories, links (with nested design files), features (with
groups and parameters) and family (with parts and parameters) — except
taxonomies, which is always the empty list after load. -/
theorem claim_C5 (e : RevitFamilyEntry) :
    saveLoad e = some { e with taxonomies := [] } :=
  saveLoad_round e

/-! ### Locator lemmas (C3, C6, C7, C10) -/

theorem firstSome_eq_some {α : Type} (l : List (Option α)) (a : α)
    (h : firstSome l = some a) : some a ∈ l := by
  induction l with
  | nil => simp [firstSome] at h
  | cons x rest ih =>
    rcases x with _ | b
    · simp only [firstSome] at h
      exact List.mem_cons_of_mem _ (ih h)
    · simp only [firstSome, Option.some.injEq] at h
      subst h
      exact List.mem_cons_self _ _

/-- A text accepted by the tier-1 validation loop is the raw decode of the
candidate under one of the four encodings and is well-formed as-is. -/
theorem tryEncodingsParse_spec (bs : List Nat) (t : String)
    (h : tryEncodingsParse bs = some t) :
    parseOk t = true ∧ ∃ enc ∈ encodingOrder, decodeWith enc bs = some t := by
  have hm := firstSome_eq_some _ _ h
  rw [List.mem_map] at hm
  obtain ⟨enc, henc, hf⟩ := hm
  rcases hd : decodeWith enc bs with _ | u
  · rw [hd] at hf; simp at hf
  · rw [hd] at hf
    by_cases hp : parseOk u = true
    · simp only [hp, if_true] at hf
      rw [Option.some.injEq] at hf
      subst hf
      exact ⟨hp, enc, henc, hd⟩
    · simp [hp] at hf

/-- Same for the tier-2 loop, which validates with the synthesized
declaration prepended but returns the raw decode. -/
theorem tryEncodingsEntryBlock_spec (bs : List Nat) (t : String)
    (h : tryEncodingsEntryBlock bs = some t) :
    parseOk (synthDecl ++ t) = true ∧
    ∃ enc ∈ encodingOrder, decodeWith enc bs = some t := by
  have hm := firstSome_eq_some _ _ h
  rw [List.mem_map] at hm
  obtain ⟨enc, henc, hf⟩ := hm
  rcases hd : decodeWith enc bs with _ | u
  · rw [hd] at hf; simp at hf
  · rw [hd] at hf
    by_cases hp : parseOk (synthDecl ++ u) = true
    · simp only [hp, if_true] at hf
      rw [Option.some.injEq] at hf
      subst hf
      exact ⟨hp, enc, henc, hd⟩
    · simp [hp] at hf

/-- Same for the tier-3 loop, which returns the decode with a declaration
prepended when it lacked one; the returned text is well-formed as-is. -/
theorem tryEncodingsAnyBlock_spec (bs : List Nat) (t : String)
    (h : tryEncodingsAnyBlock bs = some t) :
    parseOk t = true ∧
    ∃ enc ∈ encodingOrder, ∃ u, decodeWith enc bs = some u ∧
      t = (if strStartsWith u "<?xml" then u else synthDecl ++ u) := by
  have hm := firstSome_eq_some _ _ h
  rw [List.mem_map] at hm
  obtain ⟨enc, henc, hf⟩ := hm
  rcases hd : decodeWith enc bs with _ | u
  · rw [hd] at hf; simp at hf
  · rw [hd] at hf
    by_cases hp :
        parseOk (if strStartsWith u "<?xml" then u else synthDecl ++ u) = true
    · simp only [hp, if_true] at hf
      rw [Option.some.injEq] at hf
      subst hf
      exact ⟨hp, enc, henc, u, hd, rfl⟩
    · simp [hp] at hf

/-- C3 (amended). The locator's candidate validation applies NO repair: in
each tier, a candidate byte range is accepted only when some candidate
encoding's raw decode is already well-formed markup (for tiers 2 and 3 with
the synthesized declaration prepended); otherwise the candidate is rejected
and the search continues.  Repair happens only later, in
`read_from_xml_string`, on the already-extracted text. -/
theorem claim_C3 :
    (∀ bs t, tryEncodingsParse bs = some t →
       parseOk t = true ∧ ∃ enc ∈ encodingOrder, decodeWith enc bs = some t)
  ∧ (∀ bs t, tryEncodingsEntryBlock bs = some t →
       parseOk (synthDecl ++ t) = true ∧
       ∃ enc ∈ encodingOrder, decodeWith enc bs = some t)
  ∧ (∀ bs t, tryEncodingsAnyBlock bs = some t →
       parseOk t = true ∧
       ∃ enc ∈ encodingOrder, ∃ u, decodeWith enc bs = some u ∧
         t = (if strStartsWith u "<?xml" then u else synthDecl ++ u)) :=
  ⟨tryEncodingsParse_spec, tryEncodingsEntryBlock_spec, tryEncodingsAnyBlock_spec⟩

/-- C3 witness: a directly well-formed candidate accepted by tier-1
validation. -/
theorem claim_C3_witness :
    tryEncodingsParse (strBytes "<e>x</e>") = some "<e>x</e>" ∧
    (parseOk "<e>x</e>" = true ∧
     ∃ enc ∈ encodingOrder, decodeWith enc (strBytes "<e>x</e>") = some "<e>x</e>") :=
  ⟨by decide, claim_C3.1 (strBytes "<e>x</e>") "<e>x</e>" (by decide)⟩

/-- C3 counterexample: the blob `<entry>a&b</entry>` decodes under UTF-8,
is not well-formed, and one repair pass would make it well-formed — yet the
locator rejects every candidate and extraction returns nothing, so no
repair-and-retry happens during candidate validation. -/
theorem claim_C3_counterexample :
    decodeWith .utf8 (strBytes "<entry>a&b</entry>") = some "<entry>a&b</entry>" ∧
    parseOk (synthDecl ++ "<entry>a&b</entry>") = false ∧
    parseOk (synthDecl ++ repairXml "<entry>a&b</entry>") = true ∧
    extractXmlFromBinary (strBytes "<entry>a&b</entry>") = "" :=
  ⟨by decide, by decide, by decide, by decide⟩

/-- C6 (amended). When the range from the FIRST declaration match in the
blob to the end of the first `</entry>` after it is accepted by the
validation loop (some encoding decodes it to well-formed text), tier 1
returns exactly that decoded range; the accepted text is well-formed raw,
without any repair. -/
theorem claim_C6 (bs : List Nat) (s len e : Nat) (t : String)
    (h1 : searchPat matchXmlDeclPatAt bs = some (s, len))
    (h2 : findSubIdx endEntryBytes (bs.drop s) = some e)
    (h3 : tryEncodingsParse ((bs.drop s).take (e + 8)) = some t) :
    findCompleteXmlDocument bs = t ∧ parseOk t = true := by
  refine ⟨?_, (tryEncodingsParse_spec _ _ h3).1⟩
  simp [findCompleteXmlDocument, h1, h2, h3]

/-- A blob with one correctly declared document after a junk prefix
(example input for C6). -/
def goodBlob : List Nat :=
  strBytes "junk<?xml version=\"1.0\"?><entry>ok</entry>tail"

/-- C6 witness: on `goodBlob` tier 1 returns exactly the declared
document. -/
theorem claim_C6_witness :
    searchPat matchXmlDeclPatAt goodBlob = some (4, 21) ∧
    findSubIdx endEntryBytes (goodBlob.drop 4) = some 30 ∧
    tryEncodingsParse ((goodBlob.drop 4).take 38) =
      some "<?xml version=\"1.0\"?><entry>ok</entry>" ∧
    (findCompleteXmlDocument goodBlob = "<?xml version=\"1.0\"?><entry>ok</entry>" ∧
     parseOk "<?xml version=\"1.0\"?><entry>ok</entry>" = true) :=
  ⟨by decide, by decide, by decide,
   claim_C6 goodBlob 4 21 30 _ (by decide) (by decide) (by decide)⟩

/-- A blob holding a failed document first and a well-formed, correctly
declared document second (counterexample input for C6). -/
def twoDocBlob : List Nat :=
  strBytes "<?xml version=\"1.0\"?><foo/>junk<?xml version=\"1.0\"?><entry>a</entry>"

/-- C6 counterexample: `twoDocBlob` contains (at offset 31) a well-formed,
correctly declared document running to the first closing entry marker after
its declaration (offset 29 + 8 = 37 = the whole suffix), yet tier 1 returns
"" — not that range — because it anchors on the blob's FIRST declaration
match and never retries later ones. -/
theorem claim_C6_counterexample :
    findCompleteXmlDocument twoDocBlob = "" ∧
    matchXmlDeclPatAt (twoDocBlob.drop 31) = some 21 ∧
    findSubIdx endEntryBytes (twoDocBlob.drop 31) = some 29 ∧
    (twoDocBlob.drop 31).length = 37 ∧
    tryEncodingsParse (twoDocBlob.drop 31) =
      some "<?xml version=\"1.0\"?><entry>a</entry>" :=
  ⟨by decide, by decide, by decide, by decide, by decide⟩

/-- Bytes that decode under both UTF-8 and Latin-1 to different well-formed
texts (example input for C7). -/
def biEncodable : List Nat :=
  strBytes "<?xml version=\"1.0\"?><e>" ++ [0xC3, 0xA9] ++ strBytes "</e>"

/-- C7. The encoding loop tries UTF-8, UTF-16, Latin-1, CP1252 in that
fixed order and stops at the first success: for EVERY candidate byte range
that decodes without error and parses as well-formed markup under both
UTF-8 and Latin-1 with different resulting texts, the UTF-8 interpretation
is the one returned. -/
theorem claim_C7 (bs : List Nat) (t8 tl : String)
    (h8 : decodeWith .utf8 bs = some t8) (hp8 : parseOk t8 = true)
    (_hl : decodeWith .latin1 bs = some tl) (_hpl : parseOk tl = true)
    (_hne : t8 ≠ tl) :
    tryEncodingsParse bs = some t8 := by
  simp [tryEncodingsParse, encodingOrder, firstSome, h8, hp8]

/-- C7 witness: bytes valid under both UTF-8 and Latin-1 with different
well-formed texts; the loop returns the UTF-8 reading. -/
theorem claim_C7_witness :
    decodeWith .utf8 biEncodable = some "<?xml version=\"1.0\"?><e>é</e>" ∧
    parseOk "<?xml version=\"1.0\"?><e>é</e>" = true ∧
    decodeWith .latin1 biEncodable = some "<?xml version=\"1.0\"?><e>Ã©</e>" ∧
    parseOk "<?xml version=\"1.0\"?><e>Ã©</e>" = true ∧
    ("<?xml version=\"1.0\"?><e>é</e>" : String) ≠ "<?xml version=\"1.0\"?><e>Ã©</e>" ∧
    tryEncodingsParse biEncodable = some "<?xml version=\"1.0\"?><e>é</e>" :=
  ⟨by decide, by decide, by decide, by decide, by decide,
   claim_C7 biEncodable "<?xml version=\"1.0\"?><e>é</e>"
     "<?xml version=\"1.0\"?><e>Ã©</e>" (by decide) (by decide) (by decide)
     (by decide) (by decide)⟩

/-- Latin-1 decoding succeeds on every genuine byte sequence. -/
theorem latin1_total (bs : List Nat) (h : ∀ b ∈ bs, b < 256) :
    (latin1Decode bs).isSome = true := by
  induction bs with
  | nil => rfl
  | cons b rest ih =>
    have hb : b < 256 := h b (List.mem_cons_self b rest)
    have hr := ih (fun x hx => h x (List.mem_cons_of_mem b hx))
    rcases hl : latin1Decode rest with _ | l
    · rw [hl] at hr; simp at hr
    · simp [latin1Decode, hb, hl]

/-- C10. The byte-decoding step of `read_from_xml_string` cannot fail:
its "could not decode" branch is unreachable because Latin-1 (third in
line) decodes every byte sequence; the result is the first of UTF-8,
UTF-16, Latin-1, CP1252 that decodes without error, with no
well-formedness check at this stage — in particular a successful UTF-8
decode is always the result. -/
theorem claim_C10 (bs : List Nat) (h : ∀ b ∈ bs, b < 256) :
    (decodeXmlContent bs).isSome = true ∧
    decodeXmlContent bs =
      firstSome (encodingOrder.map (fun enc => decodeWith enc bs)) ∧
    (∀ t, decodeWith .utf8 bs = some t → decodeXmlContent bs = some t) := by
  refine ⟨?_, rfl, fun t ht => ?_⟩
  · obtain ⟨l, hlat⟩ := Option.isSome_iff_exists.mp (latin1_total bs h)
    have hlat2 : decodeWith .latin1 bs = some ⟨l⟩ := by simp [decodeWith, hlat]
    simp only [decodeXmlContent, encodingOrder, List.map]
    rcases h8 : decodeWith .utf8 bs with _ | t8
    · rcases h16 : decodeWith .utf16 bs with _ | t16
      · simp [firstSome, hlat2]
      · simp [firstSome]
    · simp [firstSome]
  · simp only [decodeXmlContent, encodingOrder, List.map, ht]
    rfl

/-- C10 witness: bytes that UTF-8 rejects still decode (via Latin-1). -/
theorem claim_C10_witness :
    ((decodeXmlContent [60, 255]).isSome = true ∧
     decodeXmlContent [60, 255] =
       firstSome (encodingOrder.map (fun enc => decodeWith enc [60, 255])) ∧
     (∀ t, decodeWith .utf8 [60, 255] = some t →
        decodeXmlContent [60, 255] = some t)) :=
  claim_C10 [60, 255] (by decide)

end Rfa2Json
